import Mathlib

/-!
Verification development for a point-of-sale (POS) backend consisting of
thin HTTP request handlers over a relational store.  The Python handlers
(SalesServices: purchase_order.py, cancelled_order.py, top_products.py,
sales.py; SessionServices: session.py, cash_tally.py) are shallowly
embedded here: each handler becomes a pure function over an explicit
database state, monetary amounts are rationals (the source computes in
`Decimal`), database rows are structures, and HTTP outcomes are an
explicit result type.  External collaborators (the auth service, network
transport, JSON wire encoding) appear only as function parameters or
pre-decoded values.
-/

namespace POS

/-- Decoded addon payload of a line item.  The source stores addons as a
JSON-encoded object column and decodes with `json.loads`; the wire
encoding is external, so rows carry the decoded key-value pairs. -/
abbrev AddonMap := List (String × String)

/-- Embedding of the `ProcessingSaleItem` pydantic model (purchase_order.py
lines 57-62): one line item of an emitted order. -/
structure SaleItem where
  name : String
  quantity : Int
  price : ℚ
  category : String
  addons : AddonMap
deriving DecidableEq, Inhabited

/-- Embedding of the `ProcessingOrder` pydantic model (purchase_order.py
lines 64-74).  `date` keeps the raw creation timestamp; the source's
`strftime` rendering is presentation only. -/
structure Order where
  id : String
  date : Nat
  items : Int
  total : ℚ
  status : String
  orderType : String
  paymentMethod : String
  cashierName : String
  gcashReferenceNumber : Option String
  orderItems : List SaleItem
deriving DecidableEq, Inhabited

/-- One flat row of the `Sales LEFT JOIN SaleItems` result consumed by the
aggregation loops (purchase_order.py lines 142-180 and 353-392,
cancelled_order.py lines 117-161).  Item-level columns are nullable:
a left-join miss surfaces as a null `SaleItemID`. -/
structure Row where
  saleID : Int
  orderType : String
  paymentMethod : String
  createdAt : Nat
  cashierName : String
  totalDiscountAmount : ℚ
  status : String
  gcashRef : Option String
  saleItemID : Option Int
  itemName : String
  quantity : Option Int
  unitPrice : Option ℚ
  category : String
  addons : Option AddonMap
deriving DecidableEq, Inhabited

/-- Python's truthiness test `if row.SaleItemID:` — false for both NULL
and 0. -/
def itemPresent (r : Row) : Bool :=
  match r.saleItemID with
  | none => false
  | some n => n != 0

/-- The per-order accumulator: the entry of `orders_dict` for one sale id
together with that sale's entry of the separate `item_subtotals` dict
(the `_totalDiscount` scratch key is the `totalDiscount` field). -/
structure OrderAcc where
  saleID : Int
  date : Nat
  status : String
  orderType : String
  paymentMethod : String
  cashierName : String
  gcashRef : Option String
  items : Int
  orderItems : List SaleItem
  totalDiscount : ℚ
  subtotal : ℚ
deriving DecidableEq, Inhabited

/-- Initial accumulator for a newly seen sale id (the
`if sale_id not in orders_dict:` branch). -/
def initAcc (r : Row) : OrderAcc :=
  { saleID := r.saleID
    date := r.createdAt
    status := r.status
    orderType := r.orderType
    paymentMethod := r.paymentMethod
    cashierName := r.cashierName
    gcashRef := r.gcashRef
    items := 0
    orderItems := []
    totalDiscount := r.totalDiscountAmount
    subtotal := 0 }

/-- Build a `ProcessingSaleItem` from a row (`item_quantity = row.Quantity
or 0`, `item_price = row.UnitPrice or Decimal('0.0')`, addons default to
the empty map). -/
def mkItem (r : Row) : SaleItem :=
  { name := r.itemName
    quantity := r.quantity.getD 0
    price := r.unitPrice.getD 0
    category := r.category
    addons := r.addons.getD [] }

/-- The `if row.SaleItemID:` body: bump the item count, add
`price × quantity` to the per-order running subtotal, append the item. -/
def addItem (o : OrderAcc) (r : Row) : OrderAcc :=
  { o with
    items := o.items + r.quantity.getD 0
    subtotal := o.subtotal + (r.unitPrice.getD 0) * ((r.quantity.getD 0 : Int) : ℚ)
    orderItems := o.orderItems ++ [mkItem r] }

/-- One iteration of the aggregation `for row in rows:` loop.  The
insertion-ordered `orders_dict` is modelled as a list of accumulators in
insertion order. -/
def aggStep (acc : List OrderAcc) (r : Row) : List OrderAcc :=
  let acc' := if acc.any (fun o => o.saleID == r.saleID) then acc else acc ++ [initAcc r]
  if itemPresent r then
    acc'.map (fun o => if o.saleID == r.saleID then addItem o r else o)
  else
    acc'

/-- State of `orders_dict` (plus subtotals) after scanning all rows. -/
def aggState (rows : List Row) : List OrderAcc :=
  rows.foldl aggStep []

/-- Rendering of a sale id (`f"SO-{sale_id}"`). -/
def orderId (sid : Int) : String := "SO-" ++ toString sid

/-- The finalization loop body: `total = subtotal − totalDiscount`,
discard the intermediate subtotal, emit a `ProcessingOrder`. -/
def finalize (o : OrderAcc) : Order :=
  { id := orderId o.saleID
    date := o.date
    items := o.items
    total := o.subtotal - o.totalDiscount
    status := o.status
    orderType := o.orderType
    paymentMethod := o.paymentMethod
    cashierName := o.cashierName
    gcashReferenceNumber := o.gcashRef
    orderItems := o.orderItems }

/-- The Order Aggregator: fold the flat joined rows into accumulators,
then finalize each in insertion order. -/
def aggregate (rows : List Row) : List Order :=
  (aggState rows).map finalize

/-- The distinct sale ids of the input rows, in first-seen order — the
key sequence of the insertion-ordered `orders_dict`. -/
def firstSeenKeys (rows : List Row) : List Int :=
  rows.foldl (fun ks r => if r.saleID ∈ ks then ks else ks ++ [r.saleID]) []

/-- The item rows matched to one sale id, in input row order. -/
def rowsForKey (rows : List Row) (sid : Int) : List Row :=
  rows.filter (fun r => r.saleID == sid && itemPresent r)

/-- Σ (unit price × quantity) over the item rows of one sale id. -/
def itemSum (rows : List Row) (sid : Int) : ℚ :=
  ((rowsForKey rows sid).map
    (fun r => (r.unitPrice.getD 0) * ((r.quantity.getD 0 : Int) : ℚ))).sum

/-- Σ quantity over the item rows of one sale id (`items` counter). -/
def itemCount (rows : List Row) (sid : Int) : Int :=
  ((rowsForKey rows sid).map (fun r => r.quantity.getD 0)).sum

/-- The emitted line items for one sale id, in input row order. -/
def itemList (rows : List Row) (sid : Int) : List SaleItem :=
  (rowsForKey rows sid).map mkItem

/-- The first row carrying a given sale id (source of the copied
order-level fields). -/
def firstRowFor (rows : List Row) (sid : Int) : Option Row :=
  rows.find? (fun r => r.saleID == sid)

/-- Total discount of an order as picked up by the aggregator: from the
first row seen for that sale id. -/
def discountOf (rows : List Row) (sid : Int) : ℚ :=
  ((firstRowFor rows sid).getD default).totalDiscountAmount

/-- Specification-level accumulator for one sale id: order-level fields
from the first row with that id, item aggregates over all its item rows. -/
def orderAccFor (rows : List Row) (sid : Int) : OrderAcc :=
  let r0 := (firstRowFor rows sid).getD default
  { saleID := sid
    date := r0.createdAt
    status := r0.status
    orderType := r0.orderType
    paymentMethod := r0.paymentMethod
    cashierName := r0.cashierName
    gcashRef := r0.gcashRef
    items := itemCount rows sid
    orderItems := itemList rows sid
    totalDiscount := r0.totalDiscountAmount
    subtotal := itemSum rows sid }

/-- Specification-level emitted order for one sale id. -/
def orderFor (rows : List Row) (sid : Int) : Order :=
  finalize (orderAccFor rows sid)

/-- The order-level columns of a joined row (those copied into the
accumulator when a sale id is first seen). -/
structure OrderCols where
  orderType : String
  paymentMethod : String
  createdAt : Nat
  cashierName : String
  totalDiscountAmount : ℚ
  status : String
  gcashRef : Option String
deriving DecidableEq, Inhabited

/-- Project a joined row onto its order-level columns. -/
def orderFields (r : Row) : OrderCols :=
  { orderType := r.orderType
    paymentMethod := r.paymentMethod
    createdAt := r.createdAt
    cashierName := r.cashierName
    totalDiscountAmount := r.totalDiscountAmount
    status := r.status
    gcashRef := r.gcashRef }

/-- Well-formedness of a joined row set: rows sharing a sale id agree on
all order-level columns.  Every result set of the source's
`Sales LEFT JOIN SaleItems` queries satisfies this, because the
order-level columns are functionally determined by the `Sales` key. -/
def rowsConsistent (rows : List Row) : Prop :=
  ∀ r ∈ rows, ∀ s ∈ rows, r.saleID = s.saleID → orderFields r = orderFields s

instance (rows : List Row) : Decidable (rowsConsistent rows) :=
  inferInstanceAs (Decidable (∀ r ∈ rows, ∀ s ∈ rows,
    r.saleID = s.saleID → orderFields r = orderFields s))

theorem aggState_append (l : List Row) (r : Row) :
    aggState (l ++ [r]) = aggStep (aggState l) r := by
  simp [aggState, List.foldl_append]

theorem firstSeenKeys_append (l : List Row) (r : Row) :
    firstSeenKeys (l ++ [r]) =
      if r.saleID ∈ firstSeenKeys l then firstSeenKeys l
      else firstSeenKeys l ++ [r.saleID] := by
  simp [firstSeenKeys, List.foldl_append]

theorem mem_firstSeenKeys (rows : List Row) (sid : Int) :
    sid ∈ firstSeenKeys rows ↔ ∃ r ∈ rows, r.saleID = sid := by
  induction rows using List.reverseRecOn with
  | nil => simp [firstSeenKeys]
  | append_singleton l r ih =>
      rw [firstSeenKeys_append]
      by_cases h : r.saleID ∈ firstSeenKeys l
      · rw [if_pos h]
        constructor
        · intro hs
          obtain ⟨r', hr', he⟩ := ih.mp hs
          exact ⟨r', List.mem_append_left _ hr', he⟩
        · rintro ⟨r', hr', he⟩
          rcases List.mem_append.mp hr' with hl | hr
          · exact ih.mpr ⟨r', hl, he⟩
          · simp only [List.mem_singleton] at hr
            subst hr; subst he; exact h
      · rw [if_neg h]
        simp only [List.mem_append, List.mem_singleton, ih]
        constructor
        · rintro (⟨r', hr', he⟩ | he)
          · exact ⟨r', Or.inl hr', he⟩
          · exact ⟨r, Or.inr rfl, he.symm⟩
        · rintro ⟨r', hl | he, hrr⟩
          · exact Or.inl ⟨r', hl, hrr⟩
          · subst he; exact Or.inr hrr.symm

theorem nodup_firstSeenKeys (rows : List Row) : (firstSeenKeys rows).Nodup := by
  induction rows using List.reverseRecOn with
  | nil => simp [firstSeenKeys]
  | append_singleton l r ih =>
      rw [firstSeenKeys_append]
      by_cases h : r.saleID ∈ firstSeenKeys l
      · rwa [if_pos h]
      · rw [if_neg h]
        simp [List.nodup_append, ih, h]

theorem rowsForKey_append (l : List Row) (r : Row) (sid : Int) :
    rowsForKey (l ++ [r]) sid =
      rowsForKey l sid ++ if r.saleID == sid && itemPresent r then [r] else [] := by
  rw [rowsForKey, List.filter_append]
  congr 1
  by_cases h : (r.saleID == sid && itemPresent r) = true
  · simp [List.filter_cons, h]
  · simp [List.filter_cons, h]

theorem firstRowFor_append (l : List Row) (r : Row) (sid : Int) :
    firstRowFor (l ++ [r]) sid =
      (firstRowFor l sid).or (if r.saleID == sid then some r else none) := by
  simp only [firstRowFor, List.find?_append]
  congr 1
  by_cases h : (r.saleID == sid) = true
  · simp [List.find?_cons, h]
  · have hb : (r.saleID == sid) = false := by simpa using h
    simp [List.find?_cons, hb]

theorem firstRowFor_eq_none (l : List Row) (sid : Int)
    (h : sid ∉ firstSeenKeys l) : firstRowFor l sid = none := by
  rw [firstRowFor, List.find?_eq_none]
  intro r hr
  simp only [beq_iff_eq]
  intro he
  exact h ((mem_firstSeenKeys l sid).mpr ⟨r, hr, he⟩)

theorem firstRowFor_isSome (l : List Row) (sid : Int)
    (h : sid ∈ firstSeenKeys l) : (firstRowFor l sid).isSome := by
  obtain ⟨r, hr, he⟩ := (mem_firstSeenKeys l sid).mp h
  cases hfind : firstRowFor l sid with
  | some r' => rfl
  | none =>
      rw [firstRowFor, List.find?_eq_none] at hfind
      exact absurd (by simpa using he) (hfind r hr)

theorem orderAccFor_append_ne (l : List Row) (r : Row) (sid : Int)
    (h : ¬ r.saleID = sid) :
    orderAccFor (l ++ [r]) sid = orderAccFor l sid := by
  have hb : (r.saleID == sid) = false := by simpa using h
  have hrows : rowsForKey (l ++ [r]) sid = rowsForKey l sid := by
    rw [rowsForKey_append, hb]; simp
  have hfirst : firstRowFor (l ++ [r]) sid = firstRowFor l sid := by
    rw [firstRowFor_append, hb]; simp
  simp [orderAccFor, itemCount, itemList, itemSum, hrows, hfirst]

theorem orderAccFor_append_new (l : List Row) (r : Row)
    (h : r.saleID ∉ firstSeenKeys l) :
    orderAccFor (l ++ [r]) r.saleID =
      if itemPresent r then addItem (initAcc r) r else initAcc r := by
  have hfirst : firstRowFor (l ++ [r]) r.saleID = some r := by
    rw [firstRowFor_append, firstRowFor_eq_none l _ h]; simp
  have hrows0 : rowsForKey l r.saleID = [] := by
    rw [rowsForKey, List.filter_eq_nil_iff]
    intro x hx
    simp only [Bool.and_eq_true, beq_iff_eq, not_and]
    intro he _
    exact h ((mem_firstSeenKeys l _).mpr ⟨x, hx, he⟩)
  have hrows : rowsForKey (l ++ [r]) r.saleID =
      if itemPresent r then [r] else [] := by
    rw [rowsForKey_append, hrows0]; simp
  by_cases hi : itemPresent r
  · simp [orderAccFor, itemCount, itemList, itemSum, hrows, hfirst, hi,
      addItem, initAcc, mkItem]
  · simp [orderAccFor, itemCount, itemList, itemSum, hrows, hfirst, hi, initAcc]

theorem orderAccFor_append_old (l : List Row) (r : Row)
    (h : r.saleID ∈ firstSeenKeys l) :
    orderAccFor (l ++ [r]) r.saleID =
      if itemPresent r then addItem (orderAccFor l r.saleID) r
      else orderAccFor l r.saleID := by
  obtain ⟨r0, hr0⟩ := Option.isSome_iff_exists.mp (firstRowFor_isSome l _ h)
  have hfirst : firstRowFor (l ++ [r]) r.saleID = some r0 := by
    rw [firstRowFor_append, hr0]; rfl
  have hrows : rowsForKey (l ++ [r]) r.saleID =
      rowsForKey l r.saleID ++ if itemPresent r then [r] else [] := by
    rw [rowsForKey_append]; simp
  by_cases hi : itemPresent r
  · simp [orderAccFor, itemCount, itemList, itemSum, hrows, hfirst, hr0, hi,
      addItem, mkItem]
  · simp [orderAccFor, itemCount, itemList, itemSum, hrows, hfirst, hr0, hi]

theorem saleID_orderAccFor (rows : List Row) (sid : Int) :
    (orderAccFor rows sid).saleID = sid := rfl

/-- Refinement of the aggregation loop: after scanning all rows, the
insertion-ordered accumulator list is exactly one specification
accumulator per first-seen sale id. -/
theorem aggState_eq (rows : List Row) :
    aggState rows = (firstSeenKeys rows).map (fun sid => orderAccFor rows sid) := by
  induction rows using List.reverseRecOn with
  | nil => simp [aggState, firstSeenKeys]
  | append_singleton l r ih =>
      rw [aggState_append, firstSeenKeys_append, ih]
      by_cases hmem : r.saleID ∈ firstSeenKeys l
      · rw [if_pos hmem]
        have hany : (((firstSeenKeys l).map (fun sid => orderAccFor l sid)).any
            (fun o => o.saleID == r.saleID)) = true := by
          rw [List.any_eq_true]
          refine ⟨orderAccFor l r.saleID, List.mem_map_of_mem _ hmem, ?_⟩
          simp [saleID_orderAccFor]
        by_cases hi : itemPresent r
        · simp only [aggStep, hany, if_true, hi, List.map_map]
          refine List.map_congr_left ?_
          intro sid hsid
          simp only [Function.comp_apply, saleID_orderAccFor]
          by_cases hs : sid = r.saleID
          · subst hs
            rw [if_pos (by simp), orderAccFor_append_old l r hmem, if_pos hi]
          · have hne : ¬ r.saleID = sid := fun he => hs he.symm
            rw [if_neg (by simpa using hs), orderAccFor_append_ne l r sid hne]
        · simp only [aggStep, hany, if_true, hi, Bool.false_eq_true, if_false]
          refine List.map_congr_left ?_
          intro sid hsid
          by_cases hs : sid = r.saleID
          · subst hs
            rw [orderAccFor_append_old l r hmem, if_neg hi]
          · exact (orderAccFor_append_ne l r sid (fun he => hs he.symm)).symm
      · rw [if_neg hmem]
        have hany : (((firstSeenKeys l).map (fun sid => orderAccFor l sid)).any
            (fun o => o.saleID == r.saleID)) = false := by
          rw [List.any_eq_false]
          intro o ho
          obtain ⟨sid, hsid, rfl⟩ := List.mem_map.mp ho
          simp only [saleID_orderAccFor, beq_iff_eq]
          intro he; exact hmem (he ▸ hsid)
        have hstable : ∀ sid ∈ firstSeenKeys l,
            orderAccFor (l ++ [r]) sid = orderAccFor l sid := by
          intro sid hsid
          refine orderAccFor_append_ne l r sid (fun he => hmem ?_)
          rw [he]; exact hsid
        have hrhs : (firstSeenKeys l ++ [r.saleID]).map
              (fun sid => orderAccFor (l ++ [r]) sid)
            = (firstSeenKeys l).map (fun sid => orderAccFor l sid)
              ++ [orderAccFor (l ++ [r]) r.saleID] := by
          rw [List.map_append, List.map_congr_left hstable]
          rfl
        by_cases hi : itemPresent r
        · simp only [aggStep, hany, Bool.false_eq_true, if_false, hi, if_true]
          rw [hrhs, List.map_append, List.map_map]
          congr 1
          · refine List.map_congr_left ?_
            intro sid hsid
            simp only [Function.comp_apply, saleID_orderAccFor]
            have hs : ¬ sid = r.saleID := fun he => hmem (he ▸ hsid)
            rw [if_neg (by simpa using hs)]
          · simp only [List.map_cons, List.map_nil]
            rw [orderAccFor_append_new l r hmem, if_pos hi]
            have hini : ((initAcc r).saleID == r.saleID) = true := by
              simp [initAcc]
            rw [if_pos hini]
        · simp only [aggStep, hany, Bool.false_eq_true, if_false, hi]
          rw [hrhs, orderAccFor_append_new l r hmem, if_neg hi]

theorem aggregate_eq (rows : List Row) :
    aggregate rows = (firstSeenKeys rows).map (fun sid => orderFor rows sid) := by
  rw [aggregate, aggState_eq, List.map_map]
  rfl

theorem pairwise_indexOf_firstSeenKeys (rows : List Row) :
    (firstSeenKeys rows).Pairwise
      (fun a b => (rows.map Row.saleID).indexOf a < (rows.map Row.saleID).indexOf b) := by
  induction rows using List.reverseRecOn with
  | nil => simp [firstSeenKeys]
  | append_singleton l r ih =>
      rw [firstSeenKeys_append]
      have hmap : (l ++ [r]).map Row.saleID = l.map Row.saleID ++ [r.saleID] := by simp
      have hmemmap : ∀ a, a ∈ firstSeenKeys l → a ∈ l.map Row.saleID := by
        intro a ha
        obtain ⟨x, hx, he⟩ := (mem_firstSeenKeys l a).mp ha
        exact List.mem_map.mpr ⟨x, hx, he⟩
      by_cases h : r.saleID ∈ firstSeenKeys l
      · rw [if_pos h, hmap]
        refine ih.imp_of_mem ?_
        intro a b ha hb hab
        rw [List.indexOf_append_of_mem (hmemmap a ha),
          List.indexOf_append_of_mem (hmemmap b hb)]
        exact hab
      · rw [if_neg h, hmap, List.pairwise_append]
        refine ⟨ih.imp_of_mem ?_, by simp, ?_⟩
        · intro a b ha hb hab
          rw [List.indexOf_append_of_mem (hmemmap a ha),
            List.indexOf_append_of_mem (hmemmap b hb)]
          exact hab
        · intro a ha b hb
          simp only [List.mem_singleton] at hb
          subst hb
          have hnot : r.saleID ∉ l.map Row.saleID := by
            intro hcon
            obtain ⟨x, hx, he⟩ := List.mem_map.mp hcon
            exact h ((mem_firstSeenKeys l _).mpr ⟨x, hx, he⟩)
          rw [List.indexOf_append_of_mem (hmemmap a ha),
            List.indexOf_append_of_not_mem hnot]
          calc (l.map Row.saleID).indexOf a
              < (l.map Row.saleID).length :=
                List.indexOf_lt_length.mpr (hmemmap a ha)
            _ ≤ (l.map Row.saleID).length + [r.saleID].indexOf r.saleID :=
                Nat.le_add_right _ _

/-- Claim C2: for every input row sequence the Order Aggregator produces
exactly one output order per distinct order key — the output is one order
per first-seen sale id, the key list is duplicate-free and contains
exactly the sale ids of the input, the output length is the number of
distinct keys, keys are ordered by first occurrence in the input, and
each order's items are the matching input rows, in input row order (a
sublist of the full item-row sequence). -/
theorem aggregate_shape (rows : List Row) :
    aggregate rows = (firstSeenKeys rows).map (fun sid => orderFor rows sid)
  ∧ (firstSeenKeys rows).Nodup
  ∧ (∀ sid, sid ∈ firstSeenKeys rows ↔ sid ∈ rows.map Row.saleID)
  ∧ (aggregate rows).length = (rows.map Row.saleID).toFinset.card
  ∧ (firstSeenKeys rows).Pairwise
      (fun a b => (rows.map Row.saleID).indexOf a < (rows.map Row.saleID).indexOf b)
  ∧ ∀ sid ∈ firstSeenKeys rows,
      (orderFor rows sid).orderItems
        = (rows.filter (fun r => r.saleID == sid && itemPresent r)).map mkItem
      ∧ List.Sublist (orderFor rows sid).orderItems
          ((rows.filter itemPresent).map mkItem) := by
  have hmem : ∀ sid, sid ∈ firstSeenKeys rows ↔ sid ∈ rows.map Row.saleID := by
    intro sid
    rw [mem_firstSeenKeys]
    constructor
    · rintro ⟨r, hr, he⟩; exact List.mem_map.mpr ⟨r, hr, he⟩
    · intro h; obtain ⟨r, hr, he⟩ := List.mem_map.mp h; exact ⟨r, hr, he⟩
  refine ⟨aggregate_eq rows, nodup_firstSeenKeys rows, hmem, ?_, ?_, ?_⟩
  · rw [aggregate_eq, List.length_map, List.card_toFinset]
    refine ((List.perm_ext_iff_of_nodup (nodup_firstSeenKeys rows)
      (rows.map Row.saleID).nodup_dedup).mpr ?_).length_eq
    intro a
    rw [hmem a, List.mem_dedup]
  · exact pairwise_indexOf_firstSeenKeys rows
  · intro sid _
    constructor
    · rfl
    · have : (rows.filter (fun r => r.saleID == sid && itemPresent r))
          = (rows.filter itemPresent).filter (fun r => r.saleID == sid) := by
        rw [List.filter_filter]
      show List.Sublist (itemList rows sid) _
      rw [itemList, rowsForKey, this]
      exact (List.filter_sublist _).map mkItem

/-- A concrete joined row: sale 1, first line item. -/
def wRowA : Row :=
  { saleID := 1, orderType := "Dine-in", paymentMethod := "Cash", createdAt := 10,
    cashierName := "alice", totalDiscountAmount := 5, status := "processing",
    gcashRef := none, saleItemID := some 11, itemName := "Latte",
    quantity := some 2, unitPrice := some 90, category := "Drinks", addons := none }

/-- A concrete joined row: sale 2 with no matched items (left-join miss,
null item columns). -/
def wRowB : Row :=
  { saleID := 2, orderType := "Take-out", paymentMethod := "GCash", createdAt := 11,
    cashierName := "alice", totalDiscountAmount := 3, status := "processing",
    gcashRef := some "REF-1", saleItemID := none, itemName := "",
    quantity := none, unitPrice := none, category := "", addons := none }

/-- A concrete joined row: sale 1, second line item. -/
def wRowC : Row :=
  { saleID := 1, orderType := "Dine-in", paymentMethod := "Cash", createdAt := 10,
    cashierName := "alice", totalDiscountAmount := 5, status := "processing",
    gcashRef := none, saleItemID := some 12, itemName := "Mocha",
    quantity := some 1, unitPrice := some 110, category := "Drinks", addons := none }

/-- Concrete row sequence used by the aggregation witnesses. -/
def wRows : List Row := [wRowA, wRowB, wRowC]

/-- A permutation of `wRows` (the two item rows of sale 1 swapped). -/
def wRowsPerm : List Row := [wRowC, wRowB, wRowA]

/-- Claim C2 witness: the shape theorem evaluated at a concrete row
sequence. -/
theorem aggregate_shape_witness :
    aggregate wRows = (firstSeenKeys wRows).map (fun sid => orderFor wRows sid) :=
  (aggregate_shape wRows).1

theorem itemSum_perm (rows rows' : List Row) (hp : List.Perm rows rows')
    (sid : Int) : itemSum rows sid = itemSum rows' sid :=
  ((hp.filter _).map _).sum_eq

theorem discountOf_perm (rows rows' : List Row) (hp : List.Perm rows rows')
    (hc : rowsConsistent rows) (sid : Int) (hsid : sid ∈ rows.map Row.saleID) :
    discountOf rows sid = discountOf rows' sid := by
  have hkey : sid ∈ firstSeenKeys rows :=
    (mem_firstSeenKeys rows sid).mpr (by
      obtain ⟨r, hr, he⟩ := List.mem_map.mp hsid; exact ⟨r, hr, he⟩)
  have hkey' : sid ∈ firstSeenKeys rows' :=
    (mem_firstSeenKeys rows' sid).mpr (by
      obtain ⟨r, hr, he⟩ := (mem_firstSeenKeys rows sid).mp hkey
      exact ⟨r, hp.mem_iff.mp hr, he⟩)
  obtain ⟨r1, hr1⟩ := Option.isSome_iff_exists.mp (firstRowFor_isSome rows sid hkey)
  obtain ⟨r2, hr2⟩ := Option.isSome_iff_exists.mp (firstRowFor_isSome rows' sid hkey')
  have hm1 : r1 ∈ rows := List.mem_of_find?_eq_some hr1
  have hm2 : r2 ∈ rows := hp.mem_iff.mpr (List.mem_of_find?_eq_some hr2)
  have he1 : r1.saleID = sid := by simpa using List.find?_some hr1
  have he2 : r2.saleID = sid := by simpa using List.find?_some hr2
  have hof : orderFields r1 = orderFields r2 :=
    hc r1 hm1 r2 hm2 (he1.trans he2.symm)
  rw [discountOf, discountOf, hr1, hr2]
  exact congrArg OrderCols.totalDiscountAmount hof

/-- Claim C1: for every well-formed row set and every order key in it,
the Aggregator emits that order with
`total = Σ (unit price × quantity) − totalDiscount`, where the sum runs
over the order's non-null item rows; the total is independent of the
ordering of the rows (it is computed against any permutation `rows'` of
the reference row set `rows`); an order with zero matched item rows is
emitted with `items = 0`, `orderItems = []` and `total = 0 − totalDiscount`. -/
theorem aggregate_total_correct (rows rows' : List Row)
    (hp : List.Perm rows rows') (hc : rowsConsistent rows)
    (sid : Int) (hsid : sid ∈ rows.map Row.saleID) :
    ∃ o ∈ aggregate rows', o.id = orderId sid
      ∧ o.total = itemSum rows sid - discountOf rows sid
      ∧ (rowsForKey rows sid = [] →
          o.items = 0 ∧ o.orderItems = [] ∧ o.total = 0 - discountOf rows sid) := by
  have hkey' : sid ∈ firstSeenKeys rows' :=
    (mem_firstSeenKeys rows' sid).mpr (by
      obtain ⟨r, hr, he⟩ := List.mem_map.mp hsid
      exact ⟨r, hp.mem_iff.mp hr, he⟩)
  refine ⟨orderFor rows' sid, ?_, rfl, ?_, ?_⟩
  · rw [aggregate_eq]
    exact List.mem_map_of_mem _ hkey'
  · show itemSum rows' sid - discountOf rows' sid = _
    rw [itemSum_perm rows rows' hp sid, discountOf_perm rows rows' hp hc sid hsid]
  · intro h0
    have h0' : rowsForKey rows' sid = [] := by
      have := (hp.filter (fun r => r.saleID == sid && itemPresent r))
      rw [show rows.filter (fun r => r.saleID == sid && itemPresent r)
            = rowsForKey rows sid from rfl, h0] at this
      exact this.symm.eq_nil
    refine ⟨?_, ?_, ?_⟩
    · show itemCount rows' sid = 0
      rw [itemCount, h0']; rfl
    · show itemList rows' sid = []
      rw [itemList, h0']; rfl
    · show itemSum rows' sid - discountOf rows' sid = _
      rw [itemSum_perm rows rows' hp sid |>.symm,
        discountOf_perm rows rows' hp hc sid hsid |>.symm, itemSum, h0]
      rfl

/-- Claim C1 witness: the totals theorem applied to the concrete row
sequence `wRows` against its permutation `wRowsPerm`, at order key 1. -/
theorem aggregate_total_correct_witness :
    ∃ o ∈ aggregate wRowsPerm, o.id = orderId 1
      ∧ o.total = itemSum wRows 1 - discountOf wRows 1
      ∧ (rowsForKey wRows 1 = [] →
          o.items = 0 ∧ o.orderItems = [] ∧ o.total = 0 - discountOf wRows 1) :=
  aggregate_total_correct wRows wRowsPerm (by decide) (by decide) 1 (by decide)

/-! ## Relational store

Row types for the tables the handlers touch (`Sales`, `SaleItems`,
`CancelledOrders`, `CashierSessions`) and the database state threaded
through the stateful endpoints. -/

/-- A row of the `Sales` table. -/
structure Sale where
  saleID : Int
  orderType : String
  paymentMethod : String
  cashierName : String
  totalDiscountAmount : ℚ
  status : String
  gcashRef : Option String
  createdAt : Nat
  updatedAt : Option Nat
deriving DecidableEq, Inhabited

/-- A row of the `SaleItems` table (item columns are nullable). -/
structure SaleItemRow where
  saleItemID : Int
  saleID : Int
  itemName : String
  quantity : Option Int
  unitPrice : Option ℚ
  category : String
  addons : Option AddonMap
deriving DecidableEq, Inhabited

/-- A row of the `CashierSessions` table. -/
structure SessionRow where
  sessionID : Int
  cashierName : String
  status : String
  initialCash : ℚ
  sessionStart : Nat
  sessionEnd : Option Nat
  closingCash : Option ℚ
  cashSalesAtClose : Option ℚ
deriving DecidableEq, Inhabited

/-- A row of the `CancelledOrders` table. -/
structure CancelRecord where
  saleID : Int
  managerUsername : String
  cancelledAt : Nat
deriving DecidableEq, Inhabited

/-- The relational store state visible to these services. -/
structure DB where
  sales : List Sale
  saleItems : List SaleItemRow
  cancelledOrders : List CancelRecord
  sessions : List SessionRow
deriving DecidableEq, Inhabited

/-- Outcome of a request: a success payload message or an HTTP error
with status code and detail, as raised via `HTTPException`. -/
inductive HRes where
  | ok (msg : String)
  | err (code : Nat) (detail : String)
deriving DecidableEq, Inhabited

/-- `SUM(si.UnitPrice * si.Quantity)` contribution of one `SaleItems`
row; a NULL factor makes the product NULL, which SQL `SUM` skips —
equivalently it contributes 0. -/
def itemAmount (si : SaleItemRow) : ℚ :=
  (si.unitPrice.getD 0) * ((si.quantity.getD 0 : Int) : ℚ)

/-! ## Session close-out (cash_tally.py) -/

/-- Roles allowed to close a session (cash_tally.py line 55). -/
def closeAllowedRoles : List String := ["admin", "manager", "cashier"]

/-- The fixed denomination table (cash_tally.py lines 97-101).  The
source declares the sub-peso denominations as Python float literals and
converts with `Decimal(...)`, which is exact on the binary double: 0.25
is exactly 1/4, while 0.10 and 0.05 denote the doubles
3602879701896397/2^55 and 3602879701896397/2^56. -/
def denomValue (key : String) : Option ℚ :=
  if key == "bills1000" then some 1000
  else if key == "bills500" then some 500
  else if key == "bills200" then some 200
  else if key == "bills100" then some 100
  else if key == "bills50" then some 50
  else if key == "bills20" then some 20
  else if key == "coins10" then some 10
  else if key == "coins5" then some 5
  else if key == "coins1" then some 1
  else if key == "cents25" then some (1 / 4)
  else if key == "cents10" then some (3602879701896397 / 36028797018963968)
  else if key == "cents05" then some (3602879701896397 / 72057594037927936)
  else none

/-- Body of the `CloseSessionRequest` model: a session id and a literal
cash count per denomination label (dict iteration order as a list). -/
structure CloseReq where
  sessionId : Int
  cashCounts : List (String × Int)
deriving DecidableEq, Inhabited

/-- The `closing_cash` loop (cash_tally.py lines 102-105): sum
`denominationValue × count` over the supplied entries, ignoring
unrecognized keys. -/
def countedCash (counts : List (String × Int)) : ℚ :=
  counts.foldl
    (fun acc kv =>
      match denomValue kv.1 with
      | some v => acc + v * (kv.2 : ℚ)
      | none => acc) 0

/-- The expected-cash query (cash_tally.py lines 81-92):
`SUM(UnitPrice * Quantity)` over `Sales JOIN SaleItems` restricted to
this cashier's completed Cash sales created at or after the session
start. -/
def cashSalesSince (db : DB) (cashier : String) (start : Nat) : ℚ :=
  ((db.sales.filter (fun s => s.cashierName == cashier
      && s.paymentMethod == "Cash" && s.status == "completed"
      && decide (start ≤ s.createdAt))).map
    (fun s => ((db.saleItems.filter (fun si => si.saleID == s.saleID)).map
      itemAmount).sum)).sum

/-- Outcome of a transactional body: an uncaught raise (the transaction
is rolled back) or a committed new store state. -/
inductive CoreResult where
  | raise (e : HRes)
  | commit (db : DB)
deriving DecidableEq, Inhabited

/-- The body of the `close_session` `try` block (cash_tally.py lines
62-129): look up the Active session with the requested id, compute
expected and counted cash, and close the row in place.  Any raise out of
this computation — including the endpoint's own 404 — is caught by the
handler's blanket `except` (see `closeSession`). -/
def closeSessionCore (db : DB) (now : Nat) (req : CloseReq) : CoreResult :=
  match db.sessions.find? (fun s => s.sessionID == req.sessionId
      && s.status == "Active") with
  | none => .raise (.err 404 "No active session found with the provided ID.")
  | some srow =>
      let expected := cashSalesSince db srow.cashierName srow.sessionStart
      let counted := countedCash req.cashCounts
      .commit { db with sessions := db.sessions.map (fun s =>
        if s.sessionID == req.sessionId then
          { s with status := "Closed", sessionEnd := some now,
                   closingCash := some counted,
                   cashSalesAtClose := some expected }
        else s) }

/-- The `close_session` endpoint (cash_tally.py lines 51-138): role
gate, then the transactional core; the blanket `except Exception`
catches every raise — the 404 from the lookup included — rolls back and
surfaces a generic 500. -/
def closeSession (db : DB) (now : Nat) (role : String) (req : CloseReq) :
    HRes × DB :=
  if role ∉ closeAllowedRoles then (.err 403 "Permission denied.", db)
  else
    match closeSessionCore db now req with
    | .raise _ => (.err 500 "An error occurred while closing the session.", db)
    | .commit db' => (.ok "Session closed successfully", db')

/-- An already-closed session row (id 1). -/
def sessC3 : SessionRow :=
  { sessionID := 1, cashierName := "alice", status := "Closed",
    initialCash := 100, sessionStart := 5, sessionEnd := some 8,
    closingCash := some 100, cashSalesAtClose := some 0 }

/-- A store whose only session is already Closed (id 1). -/
def dbC3 : DB :=
  { sales := [], saleItems := [], cancelledOrders := [], sessions := [sessC3] }

/-- Close request naming the already-closed session of `dbC3`. -/
def reqC3closed : CloseReq := { sessionId := 1, cashCounts := [("bills100", 1)] }

/-- Close request naming a session id absent from `dbC3`. -/
def reqC3missing : CloseReq := { sessionId := 99, cashCounts := [("bills100", 1)] }

/-- Claim C3 (code bug): the handler's own lookup raises the intended
404 for an already-closed or nonexistent session id, but the blanket
`except Exception` of `close_session` catches that `HTTPException` and
re-raises a generic 500, so the caller observes a server error instead
of not-found; no session or sale row is mutated either way. -/
theorem close_session_not_found_bug :
    closeSessionCore dbC3 20 reqC3closed
        = .raise (.err 404 "No active session found with the provided ID.")
  ∧ closeSession dbC3 20 "cashier" reqC3closed
        = (.err 500 "An error occurred while closing the session.", dbC3)
  ∧ closeSessionCore dbC3 20 reqC3missing
        = .raise (.err 404 "No active session found with the provided ID.")
  ∧ closeSession dbC3 20 "cashier" reqC3missing
        = (.err 500 "An error occurred while closing the session.", dbC3) := by
  decide

theorem countedCash_go (counts : List (String × Int)) (a : ℚ) :
    counts.foldl
      (fun acc kv =>
        match denomValue kv.1 with
        | some v => acc + v * (kv.2 : ℚ)
        | none => acc) a
    = a + ((counts.filter (fun kv => (denomValue kv.1).isSome)).map
        (fun kv => ((denomValue kv.1).getD 0) * (kv.2 : ℚ))).sum := by
  induction counts generalizing a with
  | nil => simp
  | cons kv rest ih =>
      cases hdv : denomValue kv.1 with
      | some v =>
          simp only [List.foldl_cons, hdv, List.filter_cons, hdv,
            Option.isSome_some, List.map_cons, List.sum_cons, ih]
          simp [hdv]
          ring
      | none =>
          simp only [List.foldl_cons, hdv, List.filter_cons, hdv,
            Option.isSome_none, List.map_cons, List.sum_cons, ih]
          simp

/-- Claim C4: closing an Active session persists onto every session row
with the requested id: closing cash = Σ denominationValue × count over
recognized keys of the supplied cash count (unrecognized keys ignored),
cash sales at close = Σ unitPrice × quantity over the cashier's
completed Cash sales created at or after the session start, status
Closed, end time stamped; and the cash count
{bills500:1, bills100:2, coins10:1} is valued at 710. -/
theorem close_session_persists (db : DB) (now : Nat) (role : String)
    (req : CloseReq) (srow : SessionRow)
    (hrole : role ∈ closeAllowedRoles)
    (hfind : db.sessions.find? (fun s => s.sessionID == req.sessionId
        && s.status == "Active") = some srow) :
    (closeSession db now role req).1 = .ok "Session closed successfully"
  ∧ (∀ s ∈ (closeSession db now role req).2.sessions,
      s.sessionID = req.sessionId →
        s.status = "Closed" ∧ s.sessionEnd = some now
        ∧ s.closingCash = some (countedCash req.cashCounts)
        ∧ s.cashSalesAtClose
            = some (cashSalesSince db srow.cashierName srow.sessionStart))
  ∧ countedCash req.cashCounts
      = ((req.cashCounts.filter (fun kv => (denomValue kv.1).isSome)).map
          (fun kv => ((denomValue kv.1).getD 0) * (kv.2 : ℚ))).sum
  ∧ countedCash [("bills500", 1), ("bills100", 2), ("coins10", 1)] = 710 := by
  have hcore : closeSessionCore db now req
      = .commit { db with sessions := db.sessions.map (fun s =>
          if s.sessionID == req.sessionId then
            { s with status := "Closed", sessionEnd := some now,
                     closingCash := some (countedCash req.cashCounts),
                     cashSalesAtClose := some (cashSalesSince db
                       srow.cashierName srow.sessionStart) }
          else s) } := by
    rw [closeSessionCore, hfind]
  have hclose : closeSession db now role req
      = (.ok "Session closed successfully",
         { db with sessions := db.sessions.map (fun s =>
            if s.sessionID == req.sessionId then
              { s with status := "Closed", sessionEnd := some now,
                       closingCash := some (countedCash req.cashCounts),
                       cashSalesAtClose := some (cashSalesSince db
                         srow.cashierName srow.sessionStart) }
            else s) }) := by
    rw [closeSession, if_neg (not_not_intro hrole), hcore]
  refine ⟨by rw [hclose], ?_, ?_, ?_⟩
  · intro s hs hid
    rw [hclose] at hs
    simp only at hs
    obtain ⟨s0, hs0, rfl⟩ := List.mem_map.mp hs
    by_cases hc : (s0.sessionID == req.sessionId) = true
    · simp [hc]
    · rw [if_neg hc] at hid ⊢
      exact absurd (by simpa using hid) hc
  · exact countedCash_go req.cashCounts 0 |>.trans (zero_add _)
  · have h1 : denomValue "bills500" = some 500 := rfl
    have h2 : denomValue "bills100" = some 100 := rfl
    have h3 : denomValue "coins10" = some 10 := rfl
    simp only [countedCash, List.foldl_cons, List.foldl_nil, h1, h2, h3]
    push_cast
    norm_num

/-- A completed Cash sale of cashier alice, created during the `dbC4`
session. -/
def saleC4 : Sale :=
  { saleID := 3, orderType := "Dine-in", paymentMethod := "Cash",
    cashierName := "alice", totalDiscountAmount := 0, status := "completed",
    gcashRef := none, createdAt := 6, updatedAt := none }

/-- The line item of `saleC4`. -/
def saleItemC4 : SaleItemRow :=
  { saleItemID := 31, saleID := 3, itemName := "Latte",
    quantity := some 2, unitPrice := some 90, category := "Drinks",
    addons := none }

/-- The Active session row of `dbC4` (defined below). -/
def srowC4 : SessionRow :=
  { sessionID := 7, cashierName := "alice", status := "Active",
    initialCash := 100, sessionStart := 5, sessionEnd := none,
    closingCash := none, cashSalesAtClose := none }

/-- A store with one Active session (id 7, cashier alice). -/
def dbC4 : DB :=
  { sales := [saleC4], saleItems := [saleItemC4],
    cancelledOrders := [], sessions := [srowC4] }

/-- Close request for the Active session of `dbC4` with the cash count
of the claim's instance. -/
def reqC4 : CloseReq :=
  { sessionId := 7,
    cashCounts := [("bills500", 1), ("bills100", 2), ("coins10", 1)] }

/-- Claim C4 witness: the close theorem applied to the concrete store
`dbC4` and request `reqC4`. -/
theorem close_session_persists_witness :
    (closeSession dbC4 20 "cashier" reqC4).1 = .ok "Session closed successfully"
  ∧ (∀ s ∈ (closeSession dbC4 20 "cashier" reqC4).2.sessions,
      s.sessionID = reqC4.sessionId →
        s.status = "Closed" ∧ s.sessionEnd = some 20
        ∧ s.closingCash = some (countedCash reqC4.cashCounts)
        ∧ s.cashSalesAtClose
            = some (cashSalesSince dbC4 srowC4.cashierName srowC4.sessionStart))
  ∧ countedCash reqC4.cashCounts
      = ((reqC4.cashCounts.filter (fun kv => (denomValue kv.1).isSome)).map
          (fun kv => ((denomValue kv.1).getD 0) * (kv.2 : ℚ))).sum
  ∧ countedCash [("bills500", 1), ("bills100", 2), ("coins10", 1)] = 710 :=
  close_session_persists dbC4 20 "cashier" reqC4 srowC4 (by decide) (by decide)

/-! ## Session start (session.py) -/

/-- Roles allowed to start a session (session.py line 108). -/
def startAllowedRoles : List String := ["cashier", "manager", "admin"]

/-- Modelled from the spec: the `INSERT INTO CashierSessions (CashierName,
InitialCash)` statement names no session id — the relational store's
identity column assigns the new row a fresh id (modelled as one more
than the maximum existing id). -/
def nextSessionId (db : DB) : Int :=
  (db.sessions.map SessionRow.sessionID).foldl max 0 + 1

/-- Modelled from the spec: the insert relies on column defaults for the
fields it does not name — the new session is created with `Active`
status and the session start stamped at insert time. -/
def newSessionRow (db : DB) (u : String) (cash : ℚ) (now : Nat) : SessionRow :=
  { sessionID := nextSessionId db, cashierName := u, status := "Active",
    initialCash := cash, sessionStart := now, sessionEnd := none,
    closingCash := none, cashSalesAtClose := none }

/-- The `start_session` endpoint (session.py lines 100-146): role gate,
username and non-negative cash validation, the check-then-insert guard
against a second Active session, then the insert.  The success response
carries only a message — no session id.  This handler re-raises its own
`HTTPException`s (`except HTTPException: raise`), so the 409 surfaces. -/
def startSession (db : DB) (now : Nat) (role : String)
    (username : Option String) (initialCash : ℚ) : HRes × DB :=
  if role ∉ startAllowedRoles then
    (.err 403 ("Access denied. Role \x27" ++ role
      ++ "\x27 is not authorized for this action."), db)
  else
    match username with
    | none => (.err 400 "Username not found in authentication token.", db)
    | some u =>
        if u == "" then
          (.err 400 "Username not found in authentication token.", db)
        else if initialCash < 0 then
          (.err 400 "Initial cash amount cannot be negative.", db)
        else if db.sessions.any (fun s => s.cashierName == u
            && s.status == "Active") then
          (.err 409 "An active session already exists for this cashier.", db)
        else
          (.ok ("Cashier session for \x27" ++ u ++ "\x27 started successfully."),
           { db with sessions := db.sessions ++ [newSessionRow db u initialCash now] })

theorem le_foldl_max (l : List Int) (a : Int) : a ≤ l.foldl max a := by
  induction l generalizing a with
  | nil => exact le_refl a
  | cons x xs ih => exact le_trans (le_max_left a x) (ih (max a x))

theorem mem_le_foldl_max (l : List Int) (a x : Int) (hx : x ∈ l) :
    x ≤ l.foldl max a := by
  induction l generalizing a with
  | nil => cases hx
  | cons y ys ih =>
      rcases List.mem_cons.mp hx with rfl | hmem
      · exact le_trans (le_max_right a x) (le_foldl_max ys (max a x))
      · exact ih (max a y) hmem

theorem nextSessionId_fresh (db : DB) :
    nextSessionId db ∉ db.sessions.map SessionRow.sessionID := by
  intro hmem
  have hle : nextSessionId db
      ≤ (db.sessions.map SessionRow.sessionID).foldl max 0 :=
    mem_le_foldl_max _ 0 _ hmem
  rw [nextSessionId] at hle
  omega

/-- The empty store. -/
def dbEmpty : DB :=
  { sales := [], saleItems := [], cancelledOrders := [], sessions := [] }

/-- A store holding only the Closed session `sessC3` (id 1), so the next
identity id differs from the empty store's. -/
def dbC8B : DB :=
  { sales := [], saleItems := [], cancelledOrders := [], sessions := [sessC3] }

/-- Claim C8 counterexample: the success response of `start_session` is
only a message and carries no session id — two stores whose freshly
assigned ids differ (1 versus 2) produce identical success responses, so
the response does not return the fresh session id. -/
theorem start_session_response_lacks_id :
    (startSession dbEmpty 10 "cashier" (some "alice") 100).1
      = .ok "Cashier session for \x27alice\x27 started successfully."
  ∧ (startSession dbC8B 10 "cashier" (some "alice") 100).1
      = (startSession dbEmpty 10 "cashier" (some "alice") 100).1
  ∧ nextSessionId dbEmpty = 1
  ∧ nextSessionId dbC8B = 2 := by
  decide

/-- Claim C8 (amended): starting a session when no Active session exists
for the cashier succeeds with HTTP 201 and a confirmation message (the
fresh session id is assigned in the store but not returned in the
response), inserting one fresh Active session row; an immediate second
start for the same cashier yields a 409 conflict and leaves the session
table unchanged. -/
theorem start_session_flow (db : DB) (now : Nat) (role : String)
    (u : String) (cash : ℚ)
    (hrole : role ∈ startAllowedRoles) (hu : ¬ u = "")
    (hcash : ¬ cash < 0)
    (hactive : ∀ s ∈ db.sessions,
      ¬ (s.cashierName = u ∧ s.status = "Active")) :
    startSession db now role (some u) cash
      = (.ok ("Cashier session for \x27" ++ u ++ "\x27 started successfully."),
         { db with sessions := db.sessions ++ [newSessionRow db u cash now] })
  ∧ nextSessionId db ∉ db.sessions.map SessionRow.sessionID
  ∧ startSession
      { db with sessions := db.sessions ++ [newSessionRow db u cash now] }
      now role (some u) cash
    = (.err 409 "An active session already exists for this cashier.",
       { db with sessions := db.sessions ++ [newSessionRow db u cash now] }) := by
  have hub : (u == "") = false := by simpa using hu
  have hany : (db.sessions.any (fun s => s.cashierName == u
      && s.status == "Active")) = false := by
    rw [List.any_eq_false]
    intro s hs
    have := hactive s hs
    simp only [Bool.and_eq_true, beq_iff_eq]
    exact fun hcon => this hcon
  have hfirst : startSession db now role (some u) cash
      = (.ok ("Cashier session for \x27" ++ u ++ "\x27 started successfully."),
         { db with sessions := db.sessions ++ [newSessionRow db u cash now] }) := by
    rw [startSession, if_neg (not_not_intro hrole)]
    simp only [hub, Bool.false_eq_true, if_false, if_neg hcash, hany]
  have hany' : (({ db with sessions := db.sessions
        ++ [newSessionRow db u cash now] } : DB).sessions.any
      (fun s => s.cashierName == u && s.status == "Active")) = true := by
    rw [List.any_eq_true]
    refine ⟨newSessionRow db u cash now, ?_, by simp [newSessionRow]⟩
    simp
  refine ⟨hfirst, nextSessionId_fresh db, ?_⟩
  rw [startSession, if_neg (not_not_intro hrole)]
  simp only [hub, Bool.false_eq_true, if_false, if_neg hcash, hany']
  rfl

/-- Claim C8 witness: the amended start-session theorem applied to the
empty store for cashier alice. -/
theorem start_session_flow_witness :
    startSession dbEmpty 10 "cashier" (some "alice") 100
      = (.ok ("Cashier session for \x27alice\x27 started successfully."),
         { dbEmpty with sessions := dbEmpty.sessions
            ++ [newSessionRow dbEmpty "alice" 100 10] })
  ∧ nextSessionId dbEmpty ∉ dbEmpty.sessions.map SessionRow.sessionID
  ∧ startSession
      { dbEmpty with sessions := dbEmpty.sessions
          ++ [newSessionRow dbEmpty "alice" 100 10] }
      10 "cashier" (some "alice") 100
    = (.err 409 "An active session already exists for this cashier.",
       { dbEmpty with sessions := dbEmpty.sessions
          ++ [newSessionRow dbEmpty "alice" 100 10] }) :=
  start_session_flow dbEmpty 10 "cashier" "alice" 100
    (by decide) (by decide) (by norm_num) (by simp [dbEmpty])

/-! ## Order status update and cancellation (purchase_order.py lines
263-324) -/

/-- Roles allowed to update an order status (purchase_order.py line 274). -/
def updateAllowedRoles : List String := ["admin", "manager", "staff", "cashier"]

/-- The `Literal` values accepted for `newStatus` by the
`UpdateOrderStatusRequest` pydantic model (line 97); anything else is
rejected by request validation before the handler runs. -/
def validStatuses : List String := ["completed", "cancelled", "processing"]

/-- `CancelDetails` pydantic model (lines 93-94). -/
structure CancelDetails where
  managerUsername : String
deriving DecidableEq, Inhabited

/-- `UpdateOrderStatusRequest` pydantic model (lines 96-98). -/
structure UpdateReq where
  newStatus : String
  cancelDetails : Option CancelDetails
deriving DecidableEq, Inhabited

/-- `order_id.split('-')`: split the character sequence on every dash;
adjacent or edge dashes yield empty components, as in Python. -/
def splitOnDash (cs : List Char) : List (List Char) :=
  match cs with
  | [] => [[]]
  | c :: rest =>
      let r := splitOnDash rest
      if c = '-' then [] :: r
      else
        match r with
        | [] => [[c]]
        | g :: gs => (c :: g) :: gs

/-- Parse a nonempty all-digit character sequence as a natural number
(`int(...)` on the digit strings this system produces). -/
def digitsToNat? (cs : List Char) : Option Nat :=
  match cs with
  | [] => none
  | _ =>
      cs.foldl
        (fun acc c =>
          match acc with
          | none => none
          | some n => if c.isDigit then some (n * 10 + (c.toNat - 48)) else none)
        (some 0)

/-- `int` on a possibly dash-signed digit string. -/
def charsToInt? (cs : List Char) : Option Int :=
  match cs with
  | '-' :: rest => (digitsToNat? rest).map (fun n => -(n : Int))
  | _ => (digitsToNat? cs).map (fun n => (n : Int))

/-- `int(order_id.split('-')[-1])` (line 278): take the last
dash-separated component and parse it as an integer; a parse failure is
a 400.  (Python's `int` also tolerates surrounding whitespace and a
leading plus sign; ids produced by this system are plain digits.) -/
def parseOrderId (orderId : String) : Option Int :=
  match (splitOnDash orderId.toList).getLast? with
  | none => none
  | some cs => charsToInt? cs

/-- The guard `not request.cancelDetails or not
request.cancelDetails.managerUsername` (line 285): missing sub-object or
empty manager username. -/
def managerMissing (req : UpdateReq) : Bool :=
  match req.cancelDetails with
  | none => true
  | some cd => cd.managerUsername == ""

/-- Outcome of one downstream restock POST as observed by the handler:
a transport failure (an exception from the HTTP client) or a response
with a status code and body. -/
inductive RestockOutcome where
  | transportError (msg : String)
  | response (statusCode : Nat) (body : String)
deriving DecidableEq, Inhabited

/-- One entry of the `cancelled_items` payload (line 302). -/
structure RestockItem where
  productName : String
  quantity : Option Int
  category : String
deriving DecidableEq, Inhabited

/-- Everything observable from one `update_order_status` request: the
HTTP outcome, the store state afterwards, the restock POSTs issued
(url and payload), and the error log lines produced by the fan-out. -/
structure UpdateOut where
  result : HRes
  db : DB
  restockCalls : List (String × List RestockItem)
  logs : List String
deriving DecidableEq, Inhabited

/-- Ingredients restock endpoint (line 305). -/
def ingredientsURL : String :=
  "http://127.0.0.1:8002/ingredients/restock-from-cancelled-order"

/-- Materials restock endpoint (line 306). -/
def materialsURL : String :=
  "http://127.0.0.1:8002/materials/restock-from-cancelled-order"

/-- The per-result logging of the fan-out loop (lines 310-315): an
exception or a non-200 response is logged; a 200 produces no log. -/
def restockLog (service : String) (o : RestockOutcome) : List String :=
  match o with
  | .transportError m =>
      ["Restock call to " ++ service ++ " service failed: " ++ m]
  | .response code body =>
      if code != 200 then
        ["Restock to " ++ service ++ " service failed: "
          ++ toString code ++ " - " ++ body]
      else []

/-- The `update_order_status` endpoint (lines 269-324).  The two
downstream restock outcomes are inputs (network is external).  In the
cancel branch, the transactional block (UPDATE, rowcount check, INSERT
into CancelledOrders, SELECT items) commits before the fan-out; the 404
raised on rowcount 0 is caught by the inner blanket `except Exception`
and surfaces as a 500 with rollback.  In the non-cancel branch the 404
propagates unwrapped. -/
def updateOrderStatus (db : DB) (now : Nat) (role : String) (orderId : String)
    (req : UpdateReq) (restock : RestockOutcome × RestockOutcome) : UpdateOut :=
  if req.newStatus ∉ validStatuses then
    { result := .err 422 "Input should be \x27completed\x27, \x27cancelled\x27 or \x27processing\x27."
      db := db, restockCalls := [], logs := [] }
  else if role ∉ updateAllowedRoles then
    { result := .err 403 "Permission denied.", db := db
      restockCalls := [], logs := [] }
  else
    match parseOrderId orderId with
    | none =>
        { result := .err 400 "Invalid order ID format.", db := db
          restockCalls := [], logs := [] }
    | some pid =>
        if req.newStatus == "cancelled" then
          if managerMissing req then
            { result := .err 400 "Manager username required for cancellation."
              db := db, restockCalls := [], logs := [] }
          else if db.sales.countP (fun s => s.saleID == pid) = 0 then
            { result := .err 500 "Failed to save cancellation to DB."
              db := db, restockCalls := [], logs := [] }
          else
            let mgr := (req.cancelDetails.map CancelDetails.managerUsername).getD ""
            let db' : DB := { db with
              sales := db.sales.map (fun s =>
                if s.saleID == pid then
                  { s with status := req.newStatus, updatedAt := some now }
                else s)
              cancelledOrders := db.cancelledOrders
                ++ [{ saleID := pid, managerUsername := mgr, cancelledAt := now }] }
            let itemsToRestock := db.saleItems.filter (fun si => si.saleID == pid)
            if itemsToRestock.isEmpty then
              { result := .ok "Order has been cancelled and inventory restock initiated."
                db := db', restockCalls := [], logs := [] }
            else
              let payload : List RestockItem := itemsToRestock.map (fun si =>
                { productName := si.itemName, quantity := si.quantity
                  category := si.category })
              { result := .ok "Order has been cancelled and inventory restock initiated."
                db := db'
                restockCalls := [(ingredientsURL, payload), (materialsURL, payload)]
                logs := restockLog "Ingredients" restock.1
                  ++ restockLog "Materials" restock.2 }
        else
          if db.sales.countP (fun s => s.saleID == pid) = 0 then
            { result := .err 404 ("Order \x27" ++ orderId ++ "\x27 not found.")
              db := db, restockCalls := [], logs := [] }
          else
            { result := .ok ("Order status successfully updated to \x27"
                ++ req.newStatus ++ "\x27.")
              db := { db with sales := db.sales.map (fun s =>
                if s.saleID == pid then
                  { s with status := req.newStatus, updatedAt := some now }
                else s) }
              restockCalls := [], logs := [] }

/-- One status-update request in a sequence: its wall-clock time, the
authenticated caller's role, the target order id, the request body and
the two downstream restock outcomes. -/
structure UpdCall where
  now : Nat
  role : String
  orderId : String
  req : UpdateReq
  restock : RestockOutcome × RestockOutcome
deriving DecidableEq, Inhabited

/-- Store state after one status-update request. -/
def applyCall (db : DB) (c : UpdCall) : DB :=
  (updateOrderStatus db c.now c.role c.orderId c.req c.restock).db

/-- Store state after a sequence of status-update requests. -/
def runUpdates (db : DB) (calls : List UpdCall) : DB :=
  calls.foldl applyCall db

/-- Number of Cancellation Records held for one sale id. -/
def cancelCount (db : DB) (sid : Int) : Nat :=
  db.cancelledOrders.countP (fun r => r.saleID == sid)

/-- Whether a status-update request reaches the commit of the
cancellation transaction: a `cancelled` request by an allowed role with
a manager username, whose order id parses and names an existing sale. -/
def isSuccessfulCancel (db : DB) (c : UpdCall) : Bool :=
  (c.req.newStatus == "cancelled")
  && decide (c.role ∈ updateAllowedRoles)
  && !(managerMissing c.req)
  && (parseOrderId c.orderId).isSome
  && !(db.sales.countP
        (fun s => s.saleID == (parseOrderId c.orderId).getD 0) == 0)

/-- Whether a status-update request commits a cancellation of the sale
with id `sid`. -/
def cancelsKey (db : DB) (sid : Int) (c : UpdCall) : Bool :=
  isSuccessfulCancel db c && (parseOrderId c.orderId == some sid)

theorem applyCall_cancelledOrders (db : DB) (c : UpdCall) :
    (applyCall db c).cancelledOrders
      = if isSuccessfulCancel db c then
          db.cancelledOrders
            ++ [{ saleID := (parseOrderId c.orderId).getD 0,
                  managerUsername :=
                    (c.req.cancelDetails.map CancelDetails.managerUsername).getD "",
                  cancelledAt := c.now }]
        else db.cancelledOrders := by
  unfold applyCall updateOrderStatus isSuccessfulCancel
  by_cases hv : c.req.newStatus ∈ validStatuses
  · rw [if_neg (not_not_intro hv)]
    by_cases hr : c.role ∈ updateAllowedRoles
    · rw [if_neg (not_not_intro hr)]
      cases hp : parseOrderId c.orderId with
      | none => simp [hp]
      | some pid =>
          simp only [hp]
          by_cases hc : (c.req.newStatus == "cancelled") = true
          · rw [if_pos hc]
            by_cases hm : managerMissing c.req = true
            · simp [hc, hm]
            · have hmb : managerMissing c.req = false := by simpa using hm
              rw [if_neg hm]
              by_cases hcnt : db.sales.countP (fun s => s.saleID == pid) = 0
              · simp [hc, hmb, hr, hp, hcnt]
              · rw [if_neg hcnt]
                have hrare : (if (db.saleItems.filter
                      (fun si => si.saleID == pid)).isEmpty = true then true
                    else true) = true := by split <;> rfl
                simp only [hc, hmb, hr, hp, hcnt, Option.isSome_some,
                  Option.getD_some, Bool.not_false, Bool.and_true,
                  Bool.true_and, Bool.and_self, decide_eq_true_eq]
                split
                · simp [hcnt]
                · simp [hcnt]
          · have hcb : (c.req.newStatus == "cancelled") = false := by
              simpa using hc
            rw [if_neg (by simp [hcb])]
            by_cases hcnt : db.sales.countP (fun s => s.saleID == pid) = 0
            · simp [hcb, hcnt]
            · simp [hcb, hcnt]
    · rw [if_pos hr]
      simp [hr]
  · rw [if_pos hv]
    have hcb : (c.req.newStatus == "cancelled") = false := by
      have : ¬ c.req.newStatus = "cancelled" := fun h => hv (by rw [h]; decide)
      simpa using this
    simp [hcb]

theorem applyCall_salesCount (db : DB) (c : UpdCall) (sid : Int) :
    (applyCall db c).sales.countP (fun s => s.saleID == sid)
      = db.sales.countP (fun s => s.saleID == sid) := by
  unfold applyCall updateOrderStatus
  by_cases hv : c.req.newStatus ∈ validStatuses
  · rw [if_neg (not_not_intro hv)]
    by_cases hr : c.role ∈ updateAllowedRoles
    · rw [if_neg (not_not_intro hr)]
      cases hp : parseOrderId c.orderId with
      | none => rfl
      | some pid =>
          simp only [hp]
          have hmap : ∀ now : Nat, (db.sales.map (fun s =>
              if s.saleID == pid then
                { s with status := c.req.newStatus, updatedAt := some now }
              else s)).countP (fun s => s.saleID == sid)
              = db.sales.countP (fun s => s.saleID == sid) := by
            intro now
            rw [List.countP_map]
            refine List.countP_congr ?_
            intro s _
            simp only [Function.comp_apply]
            split <;> rfl
          by_cases hc : (c.req.newStatus == "cancelled") = true
          · rw [if_pos hc]
            by_cases hm : managerMissing c.req = true
            · rw [if_pos hm]
            · rw [if_neg hm]
              by_cases hcnt : db.sales.countP (fun s => s.saleID == pid) = 0
              · rw [if_pos hcnt]
              · rw [if_neg hcnt]
                split
                · exact hmap c.now
                · exact hmap c.now
          · rw [if_neg (by simpa using hc)]
            by_cases hcnt : db.sales.countP (fun s => s.saleID == pid) = 0
            · rw [if_pos hcnt]
            · rw [if_neg hcnt]
              exact hmap c.now
    · rw [if_pos hr]
  · rw [if_pos hv]

theorem cancelsKey_applyCall (db : DB) (c0 c : UpdCall) (sid : Int) :
    cancelsKey (applyCall db c0) sid c = cancelsKey db sid c := by
  unfold cancelsKey isSuccessfulCancel
  rw [applyCall_salesCount db c0 ((parseOrderId c.orderId).getD 0)]

theorem cancelCount_applyCall (db : DB) (sid : Int) (c : UpdCall) :
    cancelCount (applyCall db c) sid
      = cancelCount db sid + (if cancelsKey db sid c then 1 else 0) := by
  rw [cancelCount, applyCall_cancelledOrders]
  by_cases hs : isSuccessfulCancel db c = true
  · rw [if_pos hs, List.countP_append]
    cases hp : parseOrderId c.orderId with
    | none =>
        exfalso
        unfold isSuccessfulCancel at hs
        simp [hp] at hs
    | some pid =>
        unfold cancelsKey
        simp only [hs, Bool.true_and, hp, Option.getD_some]
        by_cases he : pid = sid
        · subst he
          simp [cancelCount, List.countP_cons]
        · have : ((some pid : Option Int) == some sid) = false := by
            simpa using he
          simp [cancelCount, List.countP_cons, he, this]
  · have hsb : isSuccessfulCancel db c = false := by simpa using hs
    rw [if_neg hs]
    unfold cancelsKey
    simp [cancelCount, hsb]

/-- Claim C5 (amended): over any sequence of status-update requests, the
number of Cancellation Records for a sale id grows by exactly the number
of requests that commit a cancellation of that id — each successful
`cancelled` request appends one record, so repeated cancellation
requests for the same existing order id each succeed and append a
further record (the 1:1 link does NOT hold); records are created only by
the `cancelled` transition, and existing records are never modified or
deleted (the table only grows by appending). -/
theorem cancellation_record_count (db : DB) (calls : List UpdCall) (sid : Int) :
    cancelCount (runUpdates db calls) sid
      = cancelCount db sid + calls.countP (fun c => cancelsKey db sid c)
  ∧ (∀ c : UpdCall, ¬ c.req.newStatus = "cancelled" →
      (applyCall db c).cancelledOrders = db.cancelledOrders)
  ∧ ∃ tail, (runUpdates db calls).cancelledOrders
      = db.cancelledOrders ++ tail := by
  refine ⟨?_, ?_, ?_⟩
  · induction calls generalizing db with
    | nil => simp [runUpdates]
    | cons c cs ih =>
        have hrun : runUpdates db (c :: cs) = runUpdates (applyCall db c) cs := rfl
        rw [hrun, ih (applyCall db c), cancelCount_applyCall,
          List.countP_cons]
        have hcongr : cs.countP (fun c' => cancelsKey (applyCall db c) sid c')
            = cs.countP (fun c' => cancelsKey db sid c') := by
          refine List.countP_congr ?_
          intro c' _
          rw [cancelsKey_applyCall]
        rw [hcongr]
        by_cases hb : cancelsKey db sid c = true
        · simp [hb]; omega
        · simp [by simpa using hb]
  · intro c hc
    rw [applyCall_cancelledOrders]
    have : isSuccessfulCancel db c = false := by
      unfold isSuccessfulCancel
      have : (c.req.newStatus == "cancelled") = false := by simpa using hc
      simp [this]
    simp [this]
  · induction calls generalizing db with
    | nil => exact ⟨[], by simp [runUpdates]⟩
    | cons c cs ih =>
        have hrun : runUpdates db (c :: cs) = runUpdates (applyCall db c) cs := rfl
        obtain ⟨t, ht⟩ := ih (applyCall db c)
        rw [hrun, ht, applyCall_cancelledOrders]
        by_cases hs : isSuccessfulCancel db c = true
        · rw [if_pos hs]
          exact ⟨_ ++ t, (List.append_assoc _ _ _)⟩
        · rw [if_neg hs]
          exact ⟨t, rfl⟩

/-- A processing sale with id 1. -/
def saleC5 : Sale :=
  { saleID := 1, orderType := "Dine-in", paymentMethod := "Cash",
    cashierName := "alice", totalDiscountAmount := 0, status := "processing",
    gcashRef := none, createdAt := 4, updatedAt := none }

/-- Store with one processing sale and no cancellation records. -/
def dbC5 : DB :=
  { sales := [saleC5], saleItems := [], cancelledOrders := [], sessions := [] }

/-- A cancellation request for order SO-1 by a manager. -/
def callC5 : UpdCall :=
  { now := 5, role := "manager", orderId := "SO-1",
    req := { newStatus := "cancelled",
             cancelDetails := some { managerUsername := "bob" } },
    restock := (.response 200 "", .response 200 "") }

/-- Claim C5 counterexample: repeating the same cancellation request for
order SO-1 leaves TWO Cancellation Records for sale 1 — the claimed
at-most-one (1:1) invariant is violated, and the second repeated request
still reports success (the status UPDATE matches the already-cancelled
row, so the guard never fires). -/
theorem duplicate_cancellation_records :
    cancelCount (runUpdates dbC5 [callC5, callC5]) 1 = 2
  ∧ ¬ cancelCount (runUpdates dbC5 [callC5, callC5]) 1 ≤ 1
  ∧ (updateOrderStatus (applyCall dbC5 callC5) 5 "manager" "SO-1"
      callC5.req callC5.restock).result
      = .ok "Order has been cancelled and inventory restock initiated." := by
  decide

/-- Claim C5 witness: the record-count theorem evaluated on the concrete
store and the repeated cancellation sequence. -/
theorem cancellation_record_count_witness :
    cancelCount (runUpdates dbC5 [callC5, callC5]) 1
      = cancelCount dbC5 1
        + ([callC5, callC5].countP (fun c => cancelsKey dbC5 1 c)) :=
  (cancellation_record_count dbC5 [callC5, callC5] 1).1

/-- Claim C6: on a successful cancellation of an order with at least one
line item, the request reports success, the committed store state —
status flipped to cancelled and exactly one appended cancellation
record — is identical for every pair of downstream restock outcomes
(transport failure or any status code: no rollback, no request
failure), and both restock endpoints are posted to. -/
theorem restock_best_effort (db : DB) (now : Nat) (role orderId : String)
    (req : UpdateReq) (o1 o2 o1' o2' : RestockOutcome) (pid : Int)
    (hrole : role ∈ updateAllowedRoles)
    (hst : req.newStatus = "cancelled")
    (hparse : parseOrderId orderId = some pid)
    (hmgr : managerMissing req = false)
    (hexists : ¬ db.sales.countP (fun s => s.saleID == pid) = 0)
    (hitems : (db.saleItems.filter (fun si => si.saleID == pid)).isEmpty
        = false) :
    (updateOrderStatus db now role orderId req (o1, o2)).result
        = .ok "Order has been cancelled and inventory restock initiated."
  ∧ (updateOrderStatus db now role orderId req (o1, o2)).db
        = (updateOrderStatus db now role orderId req (o1', o2')).db
  ∧ (updateOrderStatus db now role orderId req (o1, o2)).db.cancelledOrders
        = db.cancelledOrders
          ++ [{ saleID := pid,
                managerUsername :=
                  (req.cancelDetails.map CancelDetails.managerUsername).getD "",
                cancelledAt := now }]
  ∧ (∀ s ∈ (updateOrderStatus db now role orderId req (o1, o2)).db.sales,
        s.saleID = pid → s.status = "cancelled")
  ∧ (updateOrderStatus db now role orderId req (o1, o2)).restockCalls.map
        Prod.fst = [ingredientsURL, materialsURL] := by
  have heval : ∀ p : RestockOutcome × RestockOutcome,
      updateOrderStatus db now role orderId req p
        = { result := .ok "Order has been cancelled and inventory restock initiated."
            db := { db with
              sales := db.sales.map (fun s =>
                if s.saleID == pid then
                  { s with status := req.newStatus, updatedAt := some now }
                else s)
              cancelledOrders := db.cancelledOrders
                ++ [{ saleID := pid,
                      managerUsername := (req.cancelDetails.map
                        CancelDetails.managerUsername).getD ""
                      cancelledAt := now }] }
            restockCalls :=
              [(ingredientsURL, (db.saleItems.filter
                  (fun si => si.saleID == pid)).map (fun si =>
                    { productName := si.itemName, quantity := si.quantity
                      category := si.category })),
               (materialsURL, (db.saleItems.filter
                  (fun si => si.saleID == pid)).map (fun si =>
                    { productName := si.itemName, quantity := si.quantity
                      category := si.category }))]
            logs := restockLog "Ingredients" p.1
              ++ restockLog "Materials" p.2 } := by
    intro p
    rw [updateOrderStatus, if_neg (by rw [hst]; decide),
      if_neg (not_not_intro hrole)]
    simp only [hparse]
    rw [if_pos (by rw [hst]; decide)]
    simp only [hmgr, Bool.false_eq_true, if_false]
    rw [if_neg hexists]
    simp only [hitems, Bool.false_eq_true, if_false]
  refine ⟨by rw [heval], by rw [heval, heval], by rw [heval], ?_,
    by rw [heval]; rfl⟩
  intro s hs hsid
  rw [heval] at hs
  simp only at hs
  obtain ⟨s0, _, rfl⟩ := List.mem_map.mp hs
  by_cases hcond : (s0.saleID == pid) = true
  · simp only [hcond, if_true]
    exact hst
  · rw [if_neg hcond] at hsid ⊢
    exact absurd (by simpa using hsid) hcond

/-- A sale item belonging to sale 1, used by the C6 witness. -/
def saleItemC6 : SaleItemRow :=
  { saleItemID := 21, saleID := 1, itemName := "Latte",
    quantity := some 2, unitPrice := some 90, category := "Drinks",
    addons := none }

/-- Store with one processing sale that has one line item. -/
def dbC6 : DB :=
  { sales := [saleC5], saleItems := [saleItemC6],
    cancelledOrders := [], sessions := [] }

/-- Claim C6 witness: the best-effort theorem applied to the concrete
store, comparing a transport failure plus a 500 response against two
200 responses. -/
theorem restock_best_effort_witness :
    (updateOrderStatus dbC6 5 "manager" "SO-1"
        { newStatus := "cancelled",
          cancelDetails := some { managerUsername := "bob" } }
        (.transportError "connection refused", .response 500 "boom")).result
      = .ok "Order has been cancelled and inventory restock initiated."
  ∧ (updateOrderStatus dbC6 5 "manager" "SO-1"
        { newStatus := "cancelled",
          cancelDetails := some { managerUsername := "bob" } }
        (.transportError "connection refused", .response 500 "boom")).db
      = (updateOrderStatus dbC6 5 "manager" "SO-1"
        { newStatus := "cancelled",
          cancelDetails := some { managerUsername := "bob" } }
        (.response 200 "", .response 200 "")).db
  ∧ (updateOrderStatus dbC6 5 "manager" "SO-1"
        { newStatus := "cancelled",
          cancelDetails := some { managerUsername := "bob" } }
        (.transportError "connection refused", .response 500 "boom")).db.cancelledOrders
      = dbC6.cancelledOrders
        ++ [{ saleID := 1,
              managerUsername := ((some { managerUsername := "bob" }
                : Option CancelDetails).map CancelDetails.managerUsername).getD "",
              cancelledAt := 5 }]
  ∧ (∀ s ∈ (updateOrderStatus dbC6 5 "manager" "SO-1"
        { newStatus := "cancelled",
          cancelDetails := some { managerUsername := "bob" } }
        (.transportError "connection refused", .response 500 "boom")).db.sales,
        s.saleID = 1 → s.status = "cancelled")
  ∧ (updateOrderStatus dbC6 5 "manager" "SO-1"
        { newStatus := "cancelled",
          cancelDetails := some { managerUsername := "bob" } }
        (.transportError "connection refused", .response 500 "boom")).restockCalls.map
        Prod.fst = [ingredientsURL, materialsURL] :=
  restock_best_effort dbC6 5 "manager" "SO-1"
    { newStatus := "cancelled",
      cancelDetails := some { managerUsername := "bob" } }
    (.transportError "connection refused") (.response 500 "boom")
    (.response 200 "") (.response 200 "") 1
    (by decide) (by decide) (by decide) (by decide) (by decide) (by decide)

/-- Claim C7: a `cancelled` status update whose payload lacks the
manager-identifying field (cancelDetails absent or managerUsername
empty) is rejected with a 400 client validation error, the store is
unchanged (no write occurs, the order status included), and no restock
call is issued. -/
theorem cancel_requires_manager (db : DB) (now : Nat) (role orderId : String)
    (req : UpdateReq) (o1 o2 : RestockOutcome)
    (hrole : role ∈ updateAllowedRoles)
    (hst : req.newStatus = "cancelled")
    (hmgr : managerMissing req = true) :
    ∃ d, (updateOrderStatus db now role orderId req (o1, o2)).result
          = .err 400 d
      ∧ (updateOrderStatus db now role orderId req (o1, o2)).db = db
      ∧ (updateOrderStatus db now role orderId req (o1, o2)).restockCalls
          = [] := by
  rw [updateOrderStatus, if_neg (by rw [hst]; decide),
    if_neg (not_not_intro hrole)]
  cases hp : parseOrderId orderId with
  | none => exact ⟨"Invalid order ID format.", rfl, rfl, rfl⟩
  | some pid =>
      simp only
      rw [if_pos (by rw [hst]; decide), if_pos hmgr]
      exact ⟨"Manager username required for cancellation.", rfl, rfl, rfl⟩

/-- Claim C7 witness: the validation theorem applied to the concrete
store with a cancel request that has no cancelDetails. -/
theorem cancel_requires_manager_witness :
    ∃ d, (updateOrderStatus dbC6 5 "manager" "SO-1"
          { newStatus := "cancelled", cancelDetails := none }
          (.response 200 "", .response 200 "")).result = .err 400 d
      ∧ (updateOrderStatus dbC6 5 "manager" "SO-1"
          { newStatus := "cancelled", cancelDetails := none }
          (.response 200 "", .response 200 "")).db = dbC6
      ∧ (updateOrderStatus dbC6 5 "manager" "SO-1"
          { newStatus := "cancelled", cancelDetails := none }
          (.response 200 "", .response 200 "")).restockCalls = [] :=
  cancel_requires_manager dbC6 5 "manager" "SO-1"
    { newStatus := "cancelled", cancelDetails := none }
    (.response 200 "") (.response 200 "")
    (by decide) (by decide) (by decide)

/-! ## Top products (top_products.py lines 54-96)

The aggregation here happens inside the SQL statement (GROUP BY item
name, SUM of quantity, ORDER BY the sum descending, TOP 10); the
statement is embedded declaratively with standard SQL semantics.  SQL
leaves the relative order of trailing ties unspecified; the embedding
uses a deterministic (insertion-)sort refinement, which is irrelevant to
the claims proved about it. -/

/-- `CAST(ts AS DATE)`: the calendar day of a timestamp. -/
def dateOf (t : Nat) : Nat := t / 86400

/-- The joined rows feeding the query: `SaleItems` rows of `completed`
sales of the cashier dated today. -/
def todaysCompletedItemRows (db : DB) (cashier : String) (today : Nat) :
    List SaleItemRow :=
  (db.sales.filter (fun s => s.status == "completed"
      && s.cashierName == cashier && dateOf s.createdAt == today)).flatMap
    (fun s => db.saleItems.filter (fun si => si.saleID == s.saleID))

/-- `SUM(si.Quantity)` for one item name over a row set (SQL skips NULL
quantities, equivalently counts them as 0). -/
def qtySum (rows : List SaleItemRow) (name : String) : Int :=
  ((rows.filter (fun si => si.itemName == name)).map
    (fun si => si.quantity.getD 0)).sum

/-- The distinct item names of a row set, in first-appearance order. -/
def firstSeenNames (rows : List SaleItemRow) : List String :=
  rows.foldl (fun ns si => if si.itemName ∈ ns then ns else ns ++ [si.itemName]) []

/-- `GROUP BY si.ItemName` with `SUM(si.Quantity)`: one (name, summed
quantity) group per distinct item name. -/
def groupQty (rows : List SaleItemRow) : List (String × Int) :=
  (firstSeenNames rows).map (fun n => (n, qtySum rows n))

/-- Insert into a list sorted by the boolean preorder `le`. -/
def insertLe {α : Type} (le : α → α → Bool) (a : α) : List α → List α
  | [] => [a]
  | b :: l => if le a b then a :: b :: l else b :: insertLe le a l

/-- Insertion sort by the boolean preorder `le` (the embedding's
deterministic refinement of SQL `ORDER BY`). -/
def sortLe {α : Type} (le : α → α → Bool) : List α → List α
  | [] => []
  | a :: l => insertLe le a (sortLe le l)

/-- `TopProductItem` pydantic model (top_products.py lines 44-46). -/
structure TopProductItem where
  name : String
  sales : Int
deriving DecidableEq, Inhabited

/-- The top-products query (top_products.py lines 70-87): group today's
completed item rows of the cashier by name, sum quantities, order
descending by the sum, keep the first 10. -/
def topProductsToday (db : DB) (cashier : String) (today : Nat) :
    List TopProductItem :=
  (((sortLe (fun a b => decide (b.2 ≤ a.2))
      (groupQty (todaysCompletedItemRows db cashier today))).take 10).map
    (fun p => { name := p.1, sales := p.2 }))

theorem mem_insertLe {α : Type} (le : α → α → Bool) (a x : α) (l : List α) :
    x ∈ insertLe le a l ↔ x = a ∨ x ∈ l := by
  induction l with
  | nil => simp [insertLe]
  | cons b bs ih =>
      rw [insertLe]
      split
      · simp [List.mem_cons]
      · simp only [List.mem_cons, ih]
        tauto

theorem insertLe_perm {α : Type} (le : α → α → Bool) (a : α) (l : List α) :
    List.Perm (insertLe le a l) (a :: l) := by
  induction l with
  | nil => exact List.Perm.refl _
  | cons b bs ih =>
      rw [insertLe]
      split
      · exact List.Perm.refl _
      · exact ((ih.cons b).trans (List.Perm.swap a b bs))

theorem sortLe_perm {α : Type} (le : α → α → Bool) (l : List α) :
    List.Perm (sortLe le l) l := by
  induction l with
  | nil => exact List.Perm.refl _
  | cons a as ih => exact (insertLe_perm le a (sortLe le as)).trans (ih.cons a)

theorem pairwise_insertLe {α : Type} (le : α → α → Bool)
    (htot : ∀ a b, le a b || le b a)
    (htrans : ∀ a b c, le a b = true → le b c = true → le a c = true)
    (a : α) (l : List α) (h : l.Pairwise (fun x y => le x y = true)) :
    (insertLe le a l).Pairwise (fun x y => le x y = true) := by
  induction l with
  | nil => simp [insertLe]
  | cons b bs ih =>
      rw [insertLe]
      rcases List.pairwise_cons.mp h with ⟨hb, hbs⟩
      split
      · rename_i hab
        refine List.pairwise_cons.mpr ⟨?_, h⟩
        intro y hy
        rcases List.mem_cons.mp hy with rfl | hmem
        · exact hab
        · exact htrans a b y hab (hb y hmem)
      · rename_i hab
        have hba : le b a = true := by
          have := htot a b
          rcases Bool.or_eq_true _ _ |>.mp this with h1 | h2
          · exact absurd h1 hab
          · exact h2
        refine List.pairwise_cons.mpr ⟨?_, ih hbs⟩
        intro y hy
        rcases (mem_insertLe le a y bs).mp hy with rfl | hmem
        · exact hba
        · exact hb y hmem

theorem sortLe_pairwise {α : Type} (le : α → α → Bool)
    (htot : ∀ a b, le a b || le b a)
    (htrans : ∀ a b c, le a b = true → le b c = true → le a c = true)
    (l : List α) :
    (sortLe le l).Pairwise (fun x y => le x y = true) := by
  induction l with
  | nil => simp [sortLe]
  | cons a as ih => exact pairwise_insertLe le htot htrans a (sortLe le as) ih

theorem mem_firstSeenNames (rows : List SaleItemRow) (n : String) :
    n ∈ firstSeenNames rows ↔ ∃ si ∈ rows, si.itemName = n := by
  induction rows using List.reverseRecOn with
  | nil => simp [firstSeenNames]
  | append_singleton l r ih =>
      have happ : firstSeenNames (l ++ [r])
          = if r.itemName ∈ firstSeenNames l then firstSeenNames l
            else firstSeenNames l ++ [r.itemName] := by
        simp [firstSeenNames, List.foldl_append]
      rw [happ]
      by_cases h : r.itemName ∈ firstSeenNames l
      · rw [if_pos h]
        constructor
        · intro hn
          obtain ⟨si, hsi, he⟩ := ih.mp hn
          exact ⟨si, List.mem_append_left _ hsi, he⟩
        · rintro ⟨si, hsi, he⟩
          rcases List.mem_append.mp hsi with hl | hr
          · exact ih.mpr ⟨si, hl, he⟩
          · simp only [List.mem_singleton] at hr
            subst hr; subst he; exact h
      · rw [if_neg h]
        simp only [List.mem_append, List.mem_singleton, ih]
        constructor
        · rintro (⟨si, hsi, he⟩ | he)
          · exact ⟨si, Or.inl hsi, he⟩
          · exact ⟨r, Or.inr rfl, he.symm⟩
        · rintro ⟨si, hl | he, hrr⟩
          · exact Or.inl ⟨si, hl, hrr⟩
          · subst he; exact Or.inr hrr.symm

/-- Claim C9 (amended): the top-products query returns at most 10
entries, ordered descending — non-strictly: groups with equal summed
quantity produce equal adjacent values — by summed quantity, and every
entry's value is the quantity sum over exactly the item rows of
completed sales dated today for that cashier (its name comes from such
a row). -/
theorem top_products_shape (db : DB) (cashier : String) (today : Nat) :
    (topProductsToday db cashier today).length ≤ 10
  ∧ (topProductsToday db cashier today).Pairwise (fun a b => b.sales ≤ a.sales)
  ∧ ∀ p ∈ topProductsToday db cashier today,
      p.sales = qtySum (todaysCompletedItemRows db cashier today) p.name
      ∧ p.name ∈ (todaysCompletedItemRows db cashier today).map
          SaleItemRow.itemName := by
  refine ⟨?_, ?_, ?_⟩
  · rw [topProductsToday, List.length_map]
    simp [List.length_take]
  · rw [topProductsToday]
    have htot : ∀ a b : String × Int,
        (decide (b.2 ≤ a.2) || decide (a.2 ≤ b.2)) = true := by
      intro a b
      rcases le_total a.2 b.2 with h | h <;> simp [h]
    have htrans : ∀ a b c : String × Int, decide (b.2 ≤ a.2) = true →
        decide (c.2 ≤ b.2) = true → decide (c.2 ≤ a.2) = true := by
      intro a b c hab hbc
      simp only [decide_eq_true_eq] at hab hbc ⊢
      exact le_trans hbc hab
    have hs := sortLe_pairwise (fun a b : String × Int => decide (b.2 ≤ a.2))
      htot htrans (groupQty (todaysCompletedItemRows db cashier today))
    refine List.Pairwise.map _ ?_ (hs.sublist (List.take_sublist 10 _))
    intro a b h
    simpa using h
  · intro p hp
    rw [topProductsToday] at hp
    obtain ⟨q, hq, rfl⟩ := List.mem_map.mp hp
    have hq2 : q ∈ sortLe (fun a b : String × Int => decide (b.2 ≤ a.2))
        (groupQty (todaysCompletedItemRows db cashier today)) :=
      List.take_subset _ _ hq
    have hq3 : q ∈ groupQty (todaysCompletedItemRows db cashier today) :=
      (sortLe_perm _ _).mem_iff.mp hq2
    obtain ⟨n, hn, rfl⟩ := List.mem_map.mp hq3
    refine ⟨rfl, ?_⟩
    obtain ⟨si, hsi, he⟩ := (mem_firstSeenNames _ n).mp hn
    exact List.mem_map.mpr ⟨si, hsi, he⟩

/-- A completed sale of cashier alice dated day 0. -/
def saleC9 : Sale :=
  { saleID := 1, orderType := "Dine-in", paymentMethod := "Cash",
    cashierName := "alice", totalDiscountAmount := 0, status := "completed",
    gcashRef := none, createdAt := 50, updatedAt := none }

/-- Item row: product A, quantity 2. -/
def itemC9A : SaleItemRow :=
  { saleItemID := 41, saleID := 1, itemName := "A", quantity := some 2,
    unitPrice := some 10, category := "Drinks", addons := none }

/-- Item row: product B, quantity 2 (ties with A). -/
def itemC9B : SaleItemRow :=
  { saleItemID := 42, saleID := 1, itemName := "B", quantity := some 2,
    unitPrice := some 10, category := "Drinks", addons := none }

/-- Store producing a tie between products A and B. -/
def dbC9 : DB :=
  { sales := [saleC9], saleItems := [itemC9A, itemC9B],
    cancelledOrders := [], sessions := [] }

/-- Claim C9 counterexample: two products with equal summed quantity
(both 2) are both returned, so the output is NOT strictly descending by
summed quantity — SQL `ORDER BY ... DESC` is non-strict on ties. -/
theorem top_products_ties_not_strict :
    topProductsToday dbC9 "alice" 0
        = [{ name := "A", sales := 2 }, { name := "B", sales := 2 }]
  ∧ ¬ (topProductsToday dbC9 "alice" 0).Pairwise
        (fun a b => b.sales < a.sales) := by
  have he : topProductsToday dbC9 "alice" 0
      = [{ name := "A", sales := 2 }, { name := "B", sales := 2 }] := by decide
  refine ⟨he, ?_⟩
  intro h
  rw [he] at h
  have := (List.pairwise_cons.mp h).1 { name := "B", sales := 2 } (by simp)
  exact absurd this (by decide)

/-- Claim C9 witness: the shape theorem evaluated on the concrete store
`dbC9`, with the per-entry aggregation conjunct instantiated at the
entry for product A. -/
theorem top_products_shape_witness :
    (topProductsToday dbC9 "alice" 0).length ≤ 10
  ∧ (({ name := "A", sales := 2 } : TopProductItem).sales
        = qtySum (todaysCompletedItemRows dbC9 "alice" 0)
            ({ name := "A", sales := 2 } : TopProductItem).name
      ∧ ({ name := "A", sales := 2 } : TopProductItem).name
          ∈ (todaysCompletedItemRows dbC9 "alice" 0).map
              SaleItemRow.itemName) :=
  ⟨(top_products_shape dbC9 "alice" 0).1,
   (top_products_shape dbC9 "alice" 0).2.2 { name := "A", sales := 2 }
     (by decide)⟩

/-! ## Processing orders (purchase_order.py lines 106-185) -/

/-- Roles allowed to view orders (purchase_order.py line 110). -/
def viewAllowedRoles : List String := ["admin", "manager", "staff", "cashier"]

/-- The statuses selected by the processing-orders query (line 129). -/
def processingStatusFilter (s : Sale) : Bool :=
  s.status == "processing" || s.status == "completed"
    || s.status == "cancelled"

/-- The WHERE clause assembled at lines 129-138: the status filter plus
— for admin/manager — an optional cashier filter when the `cashierName`
query parameter is truthy (`if cashierName:` is false for both None and
the empty string), or — for all other roles — a fixed filter pinning
the rows to the caller's own username. -/
def processingSalesFilter (role username : String)
    (cashierName : Option String) (s : Sale) : Bool :=
  processingStatusFilter s
  && (if role ∈ (["admin", "manager"] : List String) then
        match cashierName with
        | some cn => if cn != "" then s.cashierName == cn else true
        | none => true
      else s.cashierName == username)

/-- `ORDER BY s.CreatedAt ASC, s.SaleID ASC` (line 139). -/
def saleLe (a b : Sale) : Bool :=
  decide (a.createdAt < b.createdAt)
    || (a.createdAt == b.createdAt && decide (a.saleID ≤ b.saleID))

/-- Deterministic embedding of the query's ORDER BY. -/
def sortSales (sales : List Sale) : List Sale := sortLe saleLe sales

/-- One row of `Sales LEFT JOIN SaleItems`.  `gc` records whether the
query's SELECT list includes `GCashReferenceNumber` (the all-orders and
cancelled-orders queries do; the processing query does not, so the
response model defaults it to None). -/
def joinRow (gc : Bool) (s : Sale) (si : Option SaleItemRow) : Row :=
  { saleID := s.saleID
    orderType := s.orderType
    paymentMethod := s.paymentMethod
    createdAt := s.createdAt
    cashierName := s.cashierName
    totalDiscountAmount := s.totalDiscountAmount
    status := s.status
    gcashRef := if gc then s.gcashRef else none
    saleItemID := si.map SaleItemRow.saleItemID
    itemName := (si.map SaleItemRow.itemName).getD ""
    quantity := si.bind SaleItemRow.quantity
    unitPrice := si.bind SaleItemRow.unitPrice
    category := (si.map SaleItemRow.category).getD ""
    addons := si.bind SaleItemRow.addons }

/-- LEFT JOIN: every selected sale contributes one row per matched item,
or a single null-item row when no item matches. -/
def leftJoinRows (gc : Bool) (sales : List Sale) (items : List SaleItemRow) :
    List Row :=
  sales.flatMap (fun s =>
    let matched := items.filter (fun si => si.saleID == s.saleID)
    if matched.isEmpty then [joinRow gc s none]
    else matched.map (fun si => joinRow gc s (some si)))

/-- The `get_processing_orders` endpoint (lines 106-185): role gate,
role-dependent row filter, then the Order Aggregator over the joined
rows. -/
def getProcessingOrders (db : DB) (role username : String)
    (cashierName : Option String) : Except HRes (List Order) :=
  if role ∉ viewAllowedRoles then
    .error (.err 403 "You do not have permission to view orders.")
  else
    .ok (aggregate (leftJoinRows false
      (sortSales (db.sales.filter
        (processingSalesFilter role username cashierName)))
      db.saleItems))

/-- The store with its Sales table restricted to one cashier's rows. -/
def restrictToCashier (db : DB) (u : String) : DB :=
  { db with sales := db.sales.filter (fun s => s.cashierName == u) }

/-- Claim C10: for a caller whose role is neither admin nor manager, the
processing-orders response is independent of the cashierName query
parameter (any two parameter values give identical responses), and it
is computed solely from sales whose cashier name equals the caller's
username (restricting the Sales table to the caller's own rows does not
change the response). -/
theorem processing_orders_noninterference (db : DB) (role username : String)
    (cn cn' : Option String) (h : role ∉ (["admin", "manager"] : List String)) :
    getProcessingOrders db role username cn
        = getProcessingOrders db role username cn'
  ∧ getProcessingOrders db role username cn
      = getProcessingOrders (restrictToCashier db username) role
          username cn := by
  by_cases hv : role ∈ viewAllowedRoles
  · have hfilter : ∀ c : Option String, processingSalesFilter role username c
        = fun s => processingStatusFilter s && (s.cashierName == username) := by
      intro c
      funext s
      rw [processingSalesFilter.eq_def, if_neg h]
    have hff : (db.sales.filter (fun s => s.cashierName == username)).filter
          (fun s => processingStatusFilter s && (s.cashierName == username))
        = db.sales.filter
          (fun s => processingStatusFilter s && (s.cashierName == username)) := by
      rw [List.filter_filter]
      refine List.filter_congr ?_
      intro a _
      cases hF : (processingStatusFilter a && (a.cashierName == username)) with
      | false => simp [hF]
      | true =>
          simp only [Bool.and_eq_true] at hF
          simp [hF.1, hF.2]
    constructor
    · rw [getProcessingOrders, getProcessingOrders,
        if_neg (not_not_intro hv), if_neg (not_not_intro hv),
        hfilter cn, hfilter cn']
    · rw [getProcessingOrders, getProcessingOrders,
        if_neg (not_not_intro hv), if_neg (not_not_intro hv),
        hfilter cn]
      simp only [restrictToCashier]
      rw [hff]
  · constructor
    · rw [getProcessingOrders, getProcessingOrders, if_pos hv, if_pos hv]
    · rw [getProcessingOrders, getProcessingOrders, if_pos hv, if_pos hv]

/-- Claim C10 witness: a staff caller's response over a two-cashier
store is unchanged across different cashierName parameters and under
restriction to their own sales. -/
theorem processing_orders_noninterference_witness :
    getProcessingOrders dbC6 "staff" "alice" (some "bob")
        = getProcessingOrders dbC6 "staff" "alice" none
  ∧ getProcessingOrders dbC6 "staff" "alice" (some "bob")
      = getProcessingOrders (restrictToCashier dbC6 "alice") "staff"
          "alice" (some "bob") :=
  processing_orders_noninterference dbC6 "staff" "alice"
    (some "bob") none (by decide)

end POS
